import Mathlib

/-!
Shallow embedding of the seestarpy link layer (stream.py and
events/event_listener.py, events/event_stream.py) together with proofs of
the spec's testable properties.  Byte buffers and TCP streams are modelled
as `List Nat` (each entry one byte), machine integers as `Nat`.
-/

namespace Seestarpy

/-! ## Frame header codec (`stream.py`, `parse_header`) -/

/-- Big-endian 16-bit read at offset `i` (models `struct.unpack_from` with
format string of a big-endian unsigned short). -/
def be16 (buf : List Nat) (i : Nat) : Nat :=
  256 * buf.getD i 0 + buf.getD (i + 1) 0

/-- Big-endian 32-bit read at offset `i` (models `struct.unpack_from` with
format string of a big-endian unsigned int). -/
def be32 (buf : List Nat) (i : Nat) : Nat :=
  ((256 * buf.getD i 0 + buf.getD (i + 1) 0) * 256 + buf.getD (i + 2) 0) * 256
    + buf.getD (i + 3) 0

/-- Size of the binary frame header in bytes (`HEADER_SIZE`). -/
def HEADER_SIZE : Nat := 34

/-- Magic number marking the start of every image frame (`MAGIC_NUMBER`). -/
def MAGIC_NUMBER : Nat := 0x03C3

/-- The parsed 34-byte frame header record returned by `parse_header`. -/
structure FrameHeader where
  magic : Nat
  version : Nat
  length : Nat
  is_big_endian : Nat
  img_type : Nat
  data_type : Nat
  frame_id : Nat
  width : Nat
  height : Nat
  hfd_x : Nat
  hfd_y : Nat
  hfd : Nat
  can_debayer : Nat
  image_id : Nat
deriving DecidableEq, Repr

/-- `parse_header(buf)` from `stream.py`: raises `ValueError` (here `none`)
iff the buffer is not exactly 34 bytes, and otherwise unpacks the documented
big-endian fields at their offsets.  The source performs no magic check. -/
def parse_header (buf : List Nat) : Option FrameHeader :=
  if buf.length = HEADER_SIZE then
    some
      { magic := be16 buf 0
        version := be16 buf 2
        length := be32 buf 6
        is_big_endian := buf.getD 12 0
        img_type := buf.getD 13 0
        data_type := buf.getD 14 0
        frame_id := buf.getD 15 0
        width := be16 buf 16
        height := be16 buf 18
        hfd_x := be16 buf 20
        hfd_y := be16 buf 22
        hfd := be16 buf 24
        can_debayer := be16 buf 26
        image_id := be16 buf 28 }
  else none

/-- Spec-side encoder: lays every header field out big-endian at its
documented offset (reserved bytes 4-5, 10-11 and 30-33 are zero).  Used to
express the round-trip half of the header claims. -/
def encode_header (h : FrameHeader) : List Nat :=
  [h.magic / 256 % 256, h.magic % 256,
   h.version / 256 % 256, h.version % 256,
   0, 0,
   h.length / 16777216 % 256, h.length / 65536 % 256,
   h.length / 256 % 256, h.length % 256,
   0, 0,
   h.is_big_endian % 256, h.img_type % 256, h.data_type % 256, h.frame_id % 256,
   h.width / 256 % 256, h.width % 256,
   h.height / 256 % 256, h.height % 256,
   h.hfd_x / 256 % 256, h.hfd_x % 256,
   h.hfd_y / 256 % 256, h.hfd_y % 256,
   h.hfd / 256 % 256, h.hfd % 256,
   h.can_debayer / 256 % 256, h.can_debayer % 256,
   h.image_id / 256 % 256, h.image_id % 256,
   0, 0, 0, 0]

/-- Every field of `h` fits the machine width the wire format gives it. -/
def headerInRange (h : FrameHeader) : Prop :=
  h.magic < 65536 ∧ h.version < 65536 ∧ h.length < 4294967296 ∧
  h.is_big_endian < 256 ∧ h.img_type < 256 ∧ h.data_type < 256 ∧
  h.frame_id < 256 ∧ h.width < 65536 ∧ h.height < 65536 ∧
  h.hfd_x < 65536 ∧ h.hfd_y < 65536 ∧ h.hfd < 65536 ∧
  h.can_debayer < 65536 ∧ h.image_id < 65536

theorem encode_header_length (h : FrameHeader) :
    (encode_header h).length = 34 := rfl

/-- C1 (counterexample): a 34-byte buffer of zeros has an incorrect magic
(0 instead of 0x03C3), yet `parse_header` does not fail on it — the source
never validates the magic field, so the claim's "incorrect magic always
fails" part is false. -/
theorem parse_header_accepts_bad_magic :
    (List.replicate 34 0).length = 34 ∧
    be16 (List.replicate 34 0) 0 ≠ MAGIC_NUMBER ∧
    parse_header (List.replicate 34 0) ≠ none := by decide

/-- C1 (amended): `parse_header` fails exactly on buffers whose length is not
34; on every 34-byte buffer — regardless of the magic value — it returns the
record whose every field is the integer big-endian-encoded at that field's
documented offset (witnessed by round-tripping the spec-side encoder). -/
theorem parse_header_length_and_roundtrip :
    (∀ buf : List Nat, buf.length ≠ 34 → parse_header buf = none) ∧
    (∀ h : FrameHeader, headerInRange h → parse_header (encode_header h) = some h) := by
  constructor
  · intro buf hlen
    simp [parse_header, HEADER_SIZE, hlen]
  · intro h hr
    obtain ⟨h1, h2, h3, h4, h5, h6, h7, h8, h9, h10, h11, h12, h13, h14⟩ := hr
    cases h
    simp only [parse_header, encode_header, HEADER_SIZE, be16, be32, List.getD,
      List.get?, List.length, Option.getD] at *
    norm_num
    refine ⟨?_, ?_, ?_, ?_, ?_, ?_, ?_, ?_, ?_, ?_, ?_, ?_⟩ <;> omega

/-- C1 (witness): the amended theorem applied at a concrete short buffer and
a concrete in-range header. -/
theorem parse_header_length_and_roundtrip_witness :
    parse_header [1, 2, 3] = none ∧
    parse_header (encode_header ⟨963, 1, 2048, 0, 5, 3, 0, 2, 2, 0, 0, 0, 0, 1⟩)
      = some ⟨963, 1, 2048, 0, 5, 3, 0, 2, 2, 0, 0, 0, 0, 1⟩ :=
  ⟨parse_header_length_and_roundtrip.1 [1, 2, 3] (by decide),
   parse_header_length_and_roundtrip.2 _ (by unfold headerInRange; decide)⟩

/-- The byte sequence listed in the spec's end-to-end example, read off the
hex groups `03C3 0001 0000 0800 00 05 03 00 0002 0002 0000 0000 0000 0000
0001` byte for byte. -/
def specExampleBytes : List Nat :=
  [0x03, 0xC3, 0x00, 0x01, 0x00, 0x00, 0x08, 0x00, 0x00, 0x05, 0x03, 0x00,
   0x00, 0x02, 0x00, 0x02, 0x00, 0x00, 0x00, 0x00, 0x00, 0x00, 0x00, 0x00,
   0x00, 0x01]

/-- A corrected 34-byte version of the spec example: the `length` field is
widened to its documented 4 bytes at offset 6 and the reserved bytes 4-5,
10-11 and 30-33 are filled with zeros, leaving every stated field value
unchanged. -/
def specExampleBytes34 : List Nat :=
  [0x03, 0xC3, 0x00, 0x01, 0x00, 0x00, 0x00, 0x00, 0x08, 0x00, 0x00, 0x00,
   0x00, 0x05, 0x03, 0x00, 0x00, 0x02, 0x00, 0x02, 0x00, 0x00, 0x00, 0x00,
   0x00, 0x00, 0x00, 0x00, 0x00, 0x01, 0x00, 0x00, 0x00, 0x00]

/-- C4 (counterexample): the spec's example hex string is 26 bytes long, not
34, so `parse_header` rejects it instead of returning the stated record. -/
theorem spec_example_is_not_34_bytes :
    specExampleBytes.length = 26 ∧ parse_header specExampleBytes = none := by
  decide

/-- C4 (amended): on the corrected 34-byte buffer, `parse_header` returns a
header with magic 0x03C3, width 2, height 2, img_type 5, image_id 1 and
length 0x800, exactly as the example states. -/
theorem parse_header_spec_example :
    specExampleBytes34.length = 34 ∧
    parse_header specExampleBytes34 =
      some ⟨0x03C3, 1, 0x800, 0, 5, 3, 0, 2, 2, 0, 0, 0, 0, 1⟩ := by
  decide

/-! ## Payload decoding (`stream.py`, `decode_payload` and
`_decompress_payload`) -/

/-- The errors `decode_payload` / `_decompress_payload` raise as
`ValueError` (plus the zlib failure and the out-of-bounds `struct` read,
which the constructed inputs never hit). -/
inductive DecodeErr where
  | EmptyFrame
  | FormatError
  | SizeMismatch
  | UnknownFormat
  | ZlibError
  | BoundsError
deriving DecidableEq, Repr

/-- A NumPy array abstracted to its shape and its underlying raw bytes
(`np.frombuffer` reinterprets bytes without copying and `reshape` does not
touch the data, so this captures everything the decoder does). -/
structure PixelArray where
  shape : List Nat
  data : List Nat
deriving DecidableEq, Repr

/-- The 4-byte ZIP local-file-header signature `PK\x03\x04`
(`_ZIP_LOCAL_SIG`). -/
def ZIP_LOCAL_SIG : List Nat := [80, 75, 3, 4]

/-- `payload.find(_ZIP_LOCAL_SIG)`: index of the first occurrence of the
signature, `none` when absent. -/
def findSig : List Nat → Option Nat
  | [] => none
  | b :: rest =>
    if ZIP_LOCAL_SIG.isPrefixOf (b :: rest) then some 0
    else (findSig rest).map (· + 1)

/-- `_decompress_payload(payload)`: locate the ZIP local entry, read the two
little-endian 16-bit length fields at signature-offset + 26 and + 28,
compute the compressed-data start as `pk + 30 + fname_len + extra_len`, and
raw-deflate-inflate from there to the end of the payload.  Inflation itself
(`zlib.decompress(..., -15)`) is external library code and is passed in as
the function `inflate`. -/
def decompress_payload (inflate : List Nat → Option (List Nat))
    (payload : List Nat) : Except DecodeErr (List Nat) :=
  match findSig payload with
  | none => .error .FormatError
  | some pk =>
    if pk + 30 ≤ payload.length then
      let fname_len := payload.getD (pk + 26) 0 + 256 * payload.getD (pk + 27) 0
      let extra_len := payload.getD (pk + 28) 0 + 256 * payload.getD (pk + 29) 0
      let data_start := pk + 30 + fname_len + extra_len
      match inflate (payload.drop data_start) with
      | some raw => .ok raw
      | none => .error .ZlibError
    else .error .BoundsError

/-- `decode_payload(payload, header)`: zero-dimension frames fail with
`EmptyFrame`; payloads containing the ZIP signature are inflated and must
decompress to exactly `h*w*3*2` bytes (else `SizeMismatch`), reshaped to
`(h, w, 3)`; otherwise a payload of exactly `h*w*2` bytes is reshaped to
`(h, w)`; anything else fails with `UnknownFormat`. -/
def decode_payload (inflate : List Nat → Option (List Nat))
    (payload : List Nat) (header : FrameHeader) : Except DecodeErr PixelArray :=
  let w := header.width
  let h := header.height
  if w = 0 ∨ h = 0 then .error .EmptyFrame
  else if (findSig payload).isSome then
    match decompress_payload inflate payload with
    | .error e => .error e
    | .ok raw =>
      if raw.length = h * w * 3 * 2 then .ok ⟨[h, w, 3], raw⟩
      else .error .SizeMismatch
  else if payload.length = h * w * 2 then .ok ⟨[h, w], payload⟩
  else .error .UnknownFormat

/-- C6: for every header with `width = 0` or `height = 0`, `decode_payload`
fails with `EmptyFrame` for every payload whatsoever and every inflater —
the result does not depend on the payload or on the decompressor, so no
decompression or reshape is attempted. -/
theorem decode_payload_empty_frame
    (inflate : List Nat → Option (List Nat)) (payload : List Nat)
    (header : FrameHeader) (hz : header.width = 0 ∨ header.height = 0) :
    decode_payload inflate payload header = .error .EmptyFrame := by
  unfold decode_payload
  simp [hz]

/-- C6 (witness): a zero-width header with a payload that even contains a
valid ZIP signature still yields `EmptyFrame`. -/
theorem decode_payload_empty_frame_witness :
    decode_payload (fun l => some l) ([0, 0] ++ ZIP_LOCAL_SIG ++ [9, 9])
      ⟨963, 1, 8, 0, 5, 3, 0, 0, 2, 0, 0, 0, 0, 1⟩ = .error .EmptyFrame :=
  decode_payload_empty_frame _ _ _ (Or.inl rfl)

theorem getD_append_skip (l₁ l₂ : List Nat) (k d : Nat) :
    (l₁ ++ l₂).getD (l₁.length + k) d = l₂.getD k d := by
  induction l₁ with
  | nil => simp
  | cons x xs ih =>
    have : xs.length + 1 + k = (xs.length + k) + 1 := by omega
    simp only [List.cons_append, List.length_cons, this, List.getD_cons_succ]
    exact ih

/-- The payload shape the spec's stacked frames use: arbitrary prefix
padding, the ZIP local-entry signature, the 22 remaining fixed local-header
bytes, the two little-endian 16-bit length fields (bytes `a b` and `c d`),
`name_len + extra_len` bytes of file name plus extra field, then the
compressed data running to the end of the payload. -/
def zipEntryPayload (pre mid22 : List Nat) (a b c d : Nat)
    (nameExtra comp : List Nat) : List Nat :=
  pre ++ (ZIP_LOCAL_SIG ++ mid22 ++ [a, b, c, d] ++ nameExtra ++ comp)

theorem decompress_payload_zip (inflate : List Nat → Option (List Nat))
    (pre mid22 nameExtra comp data : List Nat) (a b c d : Nat)
    (hmid : mid22.length = 22)
    (hne : nameExtra.length = (a + 256 * b) + (c + 256 * d))
    (hinf : inflate comp = some data)
    (hfind : findSig (zipEntryPayload pre mid22 a b c d nameExtra comp)
      = some pre.length) :
    decompress_payload inflate (zipEntryPayload pre mid22 a b c d nameExtra comp)
      = .ok data := by
  set payload := zipEntryPayload pre mid22 a b c d nameExtra comp with hpay
  have hlen : payload.length
      = pre.length + (30 + nameExtra.length + comp.length) := by
    simp [hpay, zipEntryPayload, ZIP_LOCAL_SIG, hmid]; omega
  -- the four little-endian length bytes sit right after the 26-byte fixed part
  have hfront : (pre ++ (ZIP_LOCAL_SIG ++ mid22)).length = pre.length + 26 := by
    simp [ZIP_LOCAL_SIG, hmid]
  have hsplit : payload
      = (pre ++ (ZIP_LOCAL_SIG ++ mid22)) ++ ([a, b, c, d] ++ (nameExtra ++ comp)) := by
    simp [hpay, zipEntryPayload]
  have hread : ∀ k dflt, payload.getD (pre.length + 26 + k) dflt
      = ([a, b, c, d] ++ (nameExtra ++ comp)).getD k dflt := by
    intro k dflt
    rw [hsplit, show pre.length + 26 + k = (pre ++ (ZIP_LOCAL_SIG ++ mid22)).length + k
      by rw [hfront], getD_append_skip]
  have ha : payload.getD (pre.length + 26) 0 = a := by
    have := hread 0 0; simpa using this
  have hb : payload.getD (pre.length + 27) 0 = b := by
    have := hread 1 0
    rw [show pre.length + 26 + 1 = pre.length + 27 by omega] at this
    simpa using this
  have hc : payload.getD (pre.length + 28) 0 = c := by
    have := hread 2 0
    rw [show pre.length + 26 + 2 = pre.length + 28 by omega] at this
    simpa using this
  have hd : payload.getD (pre.length + 29) 0 = d := by
    have := hread 3 0
    rw [show pre.length + 26 + 3 = pre.length + 29 by omega] at this
    simpa using this
  have hdrop : payload.drop (pre.length + 30 + ((a + 256 * b) + (c + 256 * d)))
      = comp := by
    have hsplit2 : payload
        = (pre ++ ZIP_LOCAL_SIG ++ mid22 ++ [a, b, c, d] ++ nameExtra) ++ comp := by
      simp [hpay, zipEntryPayload]
    rw [hsplit2]
    apply List.drop_left'
    simp [ZIP_LOCAL_SIG, hmid, hne]; omega
  unfold decompress_payload
  rw [hfind]
  dsimp only
  rw [if_pos (by omega)]
  simp only [ha, hb, hc, hd]
  rw [show pre.length + 30 + (a + 256 * b) + (c + 256 * d)
    = pre.length + 30 + ((a + 256 * b) + (c + 256 * d)) by omega]
  rw [hdrop, hinf]

/-- C3 (amended): for nonzero dimensions, a payload built as prefix padding
followed by a ZIP local entry whose signature is the payload's FIRST
signature occurrence and whose compressed tail inflates to `data`,
`decode_payload` returns `data` reshaped to `(h, w, 3)` when
`data.length = h*w*3*2`, fails with `SizeMismatch` when the inflated length
differs, and `_decompress_payload` fails with `FormatError` whenever the
payload contains no signature at all. -/
theorem decode_payload_zip_roundtrip :
    (∀ (inflate : List Nat → Option (List Nat))
       (pre mid22 nameExtra comp data : List Nat) (a b c d : Nat)
       (header : FrameHeader),
       header.width ≠ 0 → header.height ≠ 0 →
       mid22.length = 22 →
       nameExtra.length = (a + 256 * b) + (c + 256 * d) →
       inflate comp = some data →
       findSig (zipEntryPayload pre mid22 a b c d nameExtra comp)
         = some pre.length →
       ((data.length = header.height * header.width * 3 * 2 →
          decode_payload inflate (zipEntryPayload pre mid22 a b c d nameExtra comp)
              header
            = .ok ⟨[header.height, header.width, 3], data⟩) ∧
        (data.length ≠ header.height * header.width * 3 * 2 →
          decode_payload inflate (zipEntryPayload pre mid22 a b c d nameExtra comp)
              header
            = .error .SizeMismatch))) ∧
    (∀ (inflate : List Nat → Option (List Nat)) (payload : List Nat),
       findSig payload = none →
       decompress_payload inflate payload = .error .FormatError) := by
  constructor
  · intro inflate pre mid22 nameExtra comp data a b c d header hw hh hmid hne
      hinf hfind
    have hdec := decompress_payload_zip inflate pre mid22 nameExtra comp data
      a b c d hmid hne hinf hfind
    unfold decode_payload
    rw [if_neg (by simp [hw, hh]), if_pos (by rw [hfind]; rfl), hdec]
    dsimp only
    constructor
    · intro hlen; rw [if_pos hlen]
    · intro hlen; rw [if_neg hlen]
  · intro inflate payload hfind
    unfold decompress_payload
    rw [hfind]

/-- C3 (counterexample): the prefix padding is NOT arbitrary — a prefix that
itself contains `PK\x03\x04` (here: the signature followed by 26 zeros) makes
`payload.find` anchor on the wrong offset, so a perfectly valid embedded
entry whose 6 inflated bytes match the expected `1*1*3*2` is rejected with
`SizeMismatch` instead of being returned. -/
theorem decode_payload_sig_in_prefix :
    [1, 2, 3, 4, 5, 6].length = (1 : Nat) * 1 * 3 * 2 ∧
    (fun l : List Nat => some l) [1, 2, 3, 4, 5, 6] = some [1, 2, 3, 4, 5, 6] ∧
    decode_payload (fun l => some l)
        (zipEntryPayload (ZIP_LOCAL_SIG ++ List.replicate 26 0)
          (List.replicate 22 0) 0 0 0 0 [] [1, 2, 3, 4, 5, 6])
        ⟨963, 1, 36, 0, 5, 3, 0, 1, 1, 0, 0, 0, 0, 1⟩
      = .error .SizeMismatch := by
  refine ⟨rfl, rfl, ?_⟩
  rfl

/-- C3 (witness): the amended theorem's round-trip branch applied to a
concrete two-byte prefix, a 1x1 image of 6 bytes, and an identity inflater,
plus the `FormatError` branch at a signature-free payload. -/
theorem decode_payload_zip_roundtrip_witness :
    decode_payload (fun l => some l)
        (zipEntryPayload [0, 0] (List.replicate 22 0) 0 0 0 0 [] [1, 2, 3, 4, 5, 6])
        ⟨963, 1, 36, 0, 5, 3, 0, 1, 1, 0, 0, 0, 0, 1⟩
      = .ok ⟨[1, 1, 3], [1, 2, 3, 4, 5, 6]⟩ ∧
    decompress_payload (fun l => some l) [0, 0, 0] = .error .FormatError :=
  ⟨(decode_payload_zip_roundtrip.1 (fun l => some l) [0, 0]
      (List.replicate 22 0) [] [1, 2, 3, 4, 5, 6] [1, 2, 3, 4, 5, 6] 0 0 0 0
      ⟨963, 1, 36, 0, 5, 3, 0, 1, 1, 0, 0, 0, 0, 1⟩
      (by decide) (by decide) (by decide) (by decide) rfl (by decide)).1
      (by decide),
   decode_payload_zip_roundtrip.2 (fun l => some l) [0, 0, 0] rfl⟩

/-! ## Frame synchronization read (`stream.py`, `_read_frame` and
`_consume_json_line`) -/

/-- `bytearray.endswith` with the two-byte terminator `\r\n`. -/
def endsCRLF (l : List Nat) : Bool :=
  match l.reverse with
  | 10 :: 13 :: _ => true
  | _ => false

/-- `_consume_json_line(sock, first_byte)`: keep reading one byte at a time
into `buf` until it ends with `\r\n`, stopping early once the buffer grows
past the 4096-byte safety limit; `none` models the `ConnectionError` that
`_recv_exact` raises when the stream runs dry first.  Returns the unread
remainder of the stream. -/
def consume_json_line : List Nat → List Nat → Option (List Nat)
  | buf, s =>
    if endsCRLF buf then some s
    else
      match s with
      | [] => none
      | c :: rest =>
        if buf.length + 1 > 4096 then some rest
        else consume_json_line (buf ++ [c]) rest

/-- The byte-by-byte resynchronisation loop of `_read_frame`, with explicit
fuel (each iteration consumes at least one stream byte, so the stream length
is always enough fuel).  On the first magic byte 0x03 it reads one more byte
and either commits on 0xC3 or keeps scanning; on `{` it discards a JSON line
via `_consume_json_line`; any other byte is skipped.  Returns the stream
immediately after the two magic bytes. -/
def syncScanF : Nat → List Nat → Option (List Nat)
  | 0, _ => none
  | fuel + 1, s =>
    match s with
    | [] => none
    | b :: rest =>
      if b = 0x03 then
        match rest with
        | [] => none
        | b2 :: rest2 =>
          if b2 = 0xC3 then some rest2 else syncScanF fuel rest2
      else if b = 123 then
        match consume_json_line [b] rest with
        | none => none
        | some s2 => syncScanF fuel s2
      else syncScanF fuel rest

/-- `_recv_exact(sock, n)`: exactly `n` bytes plus the unread remainder;
`none` models `ConnectionError` on premature close. -/
def recv_exact (n : Nat) (s : List Nat) : Option (List Nat × List Nat) :=
  if n ≤ s.length then some (s.take n, s.drop n) else none

/-- `_read_frame(sock)`: synchronise on the magic, read the remaining 32
header bytes, parse the 34-byte header, then read `length` payload bytes.
Returns the header, the payload and the unconsumed rest of the stream. -/
def read_frame (s : List Nat) : Option (FrameHeader × List Nat × List Nat) :=
  match syncScanF s.length s with
  | none => none
  | some s1 =>
    match recv_exact 32 s1 with
    | none => none
    | some (rest, s2) =>
      match parse_header ([0x03, 0xC3] ++ rest) with
      | none => none
      | some header =>
        match recv_exact header.length s2 with
        | none => none
        | some (payload, s3) => some (header, payload, s3)

/-- One piece of inter-frame noise: either a single stray byte or one
`{`-initiated JSON line. -/
inductive Junk where
  | stray (b : Nat)
  | line (l : List Nat)

/-- A well-formed discardable JSON line: starts with `{`, is terminated by
its first `\r\n`, and fits the 4096-byte consumption safety limit. -/
def lineOK (l : List Nat) : Prop :=
  l.getD 0 0 = 123 ∧ 3 ≤ l.length ∧ l.length ≤ 4097 ∧ endsCRLF l = true ∧
  ∀ k, k < l.length → 1 ≤ k → endsCRLF (l.take k) = false

instance (l : List Nat) : Decidable (lineOK l) := by
  unfold lineOK; infer_instance

/-- Noise the scanner is claimed to skip: stray bytes that are neither the
first magic byte nor `{`, and well-formed JSON lines. -/
def junkOK : Junk → Prop
  | .stray b => b ≠ 0x03 ∧ b ≠ 123
  | .line l => lineOK l

instance (j : Junk) : Decidable (junkOK j) :=
  match j with
  | .stray b => inferInstanceAs (Decidable (b ≠ 0x03 ∧ b ≠ 123))
  | .line l => inferInstanceAs (Decidable (lineOK l))

/-- The byte stream a list of junk items produces on the wire. -/
def flatJunk : List Junk → List Nat
  | [] => []
  | .stray b :: js => b :: flatJunk js
  | .line l :: js => l ++ flatJunk js

/-- A well-formed frame on the wire: a 34-byte header starting with the
magic bytes, followed by exactly `length` payload bytes. -/
def wellFormedFrame (hb payload : List Nat) : Prop :=
  hb.length = 34 ∧ hb.getD 0 0 = 0x03 ∧ hb.getD 1 0 = 0xC3 ∧
  payload.length = be32 hb 6

instance (hb payload : List Nat) : Decidable (wellFormedFrame hb payload) := by
  unfold wellFormedFrame; infer_instance

theorem consume_json_line_full (l : List Nat) (hl : lineOK l) (t : List Nat) :
    ∀ r, r ≠ [] → ∀ buf, buf ≠ [] → buf ++ r = l →
      consume_json_line buf (r ++ t) = some t := by
  obtain ⟨h0, h3, h4097, hend, hpre⟩ := hl
  intro r
  induction r with
  | nil => intro h; exact absurd rfl h
  | cons c r' ih =>
    intro _ buf hbuf hbr
    have hbpos : 1 ≤ buf.length := List.length_pos.mpr hbuf
    have hblen : buf.length + (r'.length + 1) = l.length := by
      rw [← hbr]; simp
    have hbufpre : buf = l.take buf.length := by
      rw [← hbr, List.take_left]
    have hnotend : endsCRLF buf = false := by
      have h := hpre buf.length (by omega) hbpos
      rw [← hbufpre] at h; exact h
    show consume_json_line buf (c :: (r' ++ t)) = some t
    rw [consume_json_line]
    rw [if_neg (by simp [hnotend])]
    by_cases hkill : buf.length + 1 > 4096
    · have hr' : r' = [] := by
        cases r' with
        | nil => rfl
        | cons d r'' => exfalso; simp [List.length] at hblen; omega
      subst hr'
      rw [if_pos hkill]
      simp
    · rw [if_neg hkill]
      by_cases hr' : r' = []
      · subst hr'
        have hfull : buf ++ [c] = l := by simpa using hbr
        rw [List.nil_append, consume_json_line.eq_def, hfull]
        simp [hend]
      · exact ih hr' (buf ++ [c]) (by simp) (by simpa using hbr)

theorem flatJunk_length_ge :
    ∀ js : List Junk, (∀ j ∈ js, junkOK j) →
      js.length ≤ (flatJunk js).length := by
  intro js
  induction js with
  | nil => intro _; simp [flatJunk]
  | cons j js' ih =>
    intro hok
    have hj := hok j (by simp)
    have ih' := ih (fun x hx => hok x (by simp [hx]))
    cases j with
    | stray b =>
      simp only [flatJunk, List.length_cons]
      omega
    | line l =>
      obtain ⟨_, h3, _, _, _⟩ := hj
      simp only [flatJunk, List.length_cons, List.length_append]
      omega

theorem syncScanF_junk :
    ∀ js : List Junk, (∀ j ∈ js, junkOK j) →
      ∀ (fuel : Nat) (s : List Nat),
        syncScanF (fuel + js.length) (flatJunk js ++ s) = syncScanF fuel s := by
  intro js
  induction js with
  | nil => intro _ fuel s; simp [flatJunk]
  | cons j js' ih =>
    intro hok fuel s
    have hj := hok j (by simp)
    have hok' : ∀ x ∈ js', junkOK x := fun x hx => hok x (by simp [hx])
    cases j with
    | stray b =>
      obtain ⟨hb3, hb123⟩ := hj
      show syncScanF (fuel + (js'.length + 1)) (b :: (flatJunk js' ++ s)) = _
      rw [show fuel + (js'.length + 1) = (fuel + js'.length) + 1 by omega]
      simp only [syncScanF]
      rw [if_neg hb3, if_neg hb123]
      exact ih hok' fuel s
    | line l =>
      have hline : lineOK l := hj
      have h0 := hline.1
      have h3 := hline.2.1
      cases l with
      | nil => simp at h3
      | cons x ltail =>
        have hx : x = 123 := by simpa using h0
        subst hx
        have hlt : ltail ≠ [] := by
          intro h; subst h; simp at h3
        show syncScanF (fuel + (js'.length + 1))
          (((123 :: ltail) ++ flatJunk js') ++ s) = _
        rw [show fuel + (js'.length + 1) = (fuel + js'.length) + 1 by omega]
        simp only [List.cons_append, List.append_assoc]
        simp only [syncScanF]
        rw [if_neg (by decide), if_pos trivial]
        rw [consume_json_line_full (123 :: ltail) hline (flatJunk js' ++ s) ltail
          hlt [123] (by simp) (by simp)]
        exact ih hok' fuel s

theorem parse_header_isSome (buf : List Nat) (h : buf.length = 34) :
    ∃ header, parse_header buf = some header :=
  ⟨_, by unfold parse_header; rw [if_pos (by simpa [HEADER_SIZE] using h)]⟩

theorem parse_header_length_field (buf : List Nat) (header : FrameHeader)
    (h : parse_header buf = some header) : header.length = be32 buf 6 := by
  unfold parse_header at h
  split at h
  · exact (Option.some.inj h) ▸ rfl
  · exact absurd h (by simp)

/-- C2 (amended): after any run of noise made of stray bytes that are
neither 0x03 nor `{` and of complete `{`-initiated `\r\n`-terminated JSON
lines within the safety length, `_read_frame` returns exactly the following
well-formed frame's parsed header and payload, consuming the stream through
the end of that frame.  (The original claim's closing clause — that this
also holds when the stray bytes include 0x03 — is refuted separately.) -/
theorem read_frame_resync (js : List Junk) (hjs : ∀ j ∈ js, junkOK j)
    (hb payload extra : List Nat) (hf : wellFormedFrame hb payload) :
    ∃ header, parse_header hb = some header ∧
      read_frame (flatJunk js ++ (hb ++ (payload ++ extra)))
        = some (header, payload, extra) := by
  obtain ⟨hlen, h0, h1, hplen⟩ := hf
  cases hb with
  | nil => simp at hlen
  | cons x hb1 =>
  cases hb1 with
  | nil => simp at hlen
  | cons y hrest =>
  have hx : x = 0x03 := by simpa using h0
  have hy : y = 0xC3 := by simpa using h1
  subst hx; subst hy
  have hrlen : hrest.length = 32 := by simpa using hlen
  obtain ⟨header, hheader⟩ := parse_header_isSome (0x03 :: 0xC3 :: hrest)
    (by simpa using hlen)
  have hhl : header.length = payload.length := by
    rw [parse_header_length_field _ _ hheader, ← hplen]
  refine ⟨header, hheader, ?_⟩
  simp only [List.cons_append, List.append_assoc]
  have hflat := flatJunk_length_ge js hjs
  have hsync : syncScanF
      (flatJunk js ++ (0x03 :: 0xC3 :: (hrest ++ (payload ++ extra)))).length
      (flatJunk js ++ (0x03 :: 0xC3 :: (hrest ++ (payload ++ extra))))
      = some (hrest ++ (payload ++ extra)) := by
    rw [show (flatJunk js ++ (0x03 :: 0xC3 :: (hrest ++ (payload ++ extra)))).length
        = (((flatJunk js ++ (0x03 :: 0xC3 :: (hrest ++ (payload ++ extra)))).length
            - js.length - 1) + 1) + js.length by
      simp only [List.length_append, List.length_cons]; omega]
    rw [syncScanF_junk js hjs _ _]
    rfl
  have hrecv1 : recv_exact 32 (hrest ++ (payload ++ extra))
      = some (hrest, payload ++ extra) := by
    unfold recv_exact
    rw [if_pos (by simp [hrlen])]
    rw [List.take_left' hrlen, List.drop_left' hrlen]
  have hrecv2 : recv_exact header.length (payload ++ extra)
      = some (payload, extra) := by
    unfold recv_exact
    rw [if_pos (by rw [hhl]; simp)]
    rw [hhl, List.take_left, List.drop_left]
  unfold read_frame
  rw [hsync]
  dsimp only
  rw [hrecv1]
  dsimp only
  rw [show ([0x03, 0xC3] ++ hrest : List Nat) = 0x03 :: 0xC3 :: hrest from rfl,
    hheader]
  dsimp only
  rw [hrecv2]

/-- C2 (counterexample): a single stray byte 0x03 immediately before a
well-formed frame desynchronises `_read_frame` — the scanner consumes the
frame's first magic byte as its 'second byte' check, fails it, then skips
the 0xC3, and never finds the frame.  So the claim's closing clause (the
property 'holds in particular when the preceding stray bytes include the
value 0x03') is false. -/
theorem read_frame_stray_magic_byte_desync :
    wellFormedFrame ([0x03, 0xC3] ++ List.replicate 32 0) [] ∧
    parse_header ([0x03, 0xC3] ++ List.replicate 32 0)
      = some ⟨963, 0, 0, 0, 0, 0, 0, 0, 0, 0, 0, 0, 0, 0⟩ ∧
    read_frame (0x03 :: (([0x03, 0xC3] ++ List.replicate 32 0) ++ ([] ++ [])))
      = none := by
  refine ⟨by unfold wellFormedFrame; decide, by decide, by decide⟩

/-- C2 (witness): the amended theorem at a concrete stream: a zero byte, a
minimal JSON line, a stray line-feed, then a 34-byte zero-length frame
followed by one extra byte. -/
theorem read_frame_resync_witness :
    ∃ header, parse_header ([0x03, 0xC3] ++ List.replicate 32 0) = some header ∧
      read_frame (flatJunk [.stray 0, .line [123, 13, 10], .stray 10]
          ++ (([0x03, 0xC3] ++ List.replicate 32 0) ++ ([] ++ [7])))
        = some (header, [], [7]) :=
  read_frame_resync [.stray 0, .line [123, 13, 10], .stray 10] (by decide)
    ([0x03, 0xC3] ++ List.replicate 32 0) [] [7] (by decide)

/-! ## Control-channel heartbeat schedule (`events/event_listener.py`,
`heartbeat`) -/

/-- The method name the heartbeat loop sends at tick `hb_i` (the body of the
`while` loop in `heartbeat`, which chooses the method from `hb_i` before
incrementing it). -/
def heartbeatMethod (hb_i : Nat) : String :=
  if hb_i % 10 = 0 then "get_device_state"
  else if hb_i % 10 = 4 then "iscope_get_app_state"
  else if hb_i % 3 = 1 then "scope_get_equ_coord"
  else "scope_get_horiz_coord"

/-- The schedule exactly as the claim words it: wide device-state query when
`i mod 10 = 0`; otherwise app-state query when `i mod 10 = 4`; otherwise
equatorial query when `i mod 3 = 1`; otherwise horizontal query.
(Spec-side definition for the refinement comparison.) -/
def claimSchedule (i : Nat) : String :=
  if i % 10 = 0 then "get_device_state"
  else if i % 10 = 4 then "iscope_get_app_state"
  else if i % 3 = 1 then "scope_get_equ_coord"
  else "scope_get_horiz_coord"

/-- C5 (counterexample): tick 4 satisfies `4 mod 3 = 1` yet the heartbeat
sends the app-state query, not the equatorial query — the earlier
`mod 10 = 4` branch wins, so the claim's unconditional 3-tick cadence for
`scope_get_equ_coord` is false. -/
theorem heartbeat_equ_cadence_violated :
    4 % 3 = 1 ∧ heartbeatMethod 4 = "iscope_get_app_state" ∧
    heartbeatMethod 4 ≠ "scope_get_equ_coord" := by
  refine ⟨rfl, rfl, by decide⟩

/-- C5 (amended): the heartbeat method at every tick is exactly the claim's
precedence schedule, and the equatorial query is sent on every tick with
`i mod 3 = 1` EXCEPT those captured first by the `i mod 10 = 0` or
`i mod 10 = 4` branches. -/
theorem heartbeatMethod_matches_schedule :
    (∀ i : Nat, heartbeatMethod i = claimSchedule i) ∧
    (∀ i : Nat, i % 3 = 1 → i % 10 ≠ 0 → i % 10 ≠ 4 →
      heartbeatMethod i = "scope_get_equ_coord") := by
  constructor
  · intro i; rfl
  · intro i h3 h0 h4
    unfold heartbeatMethod
    rw [if_neg h0, if_neg h4, if_pos h3]

/-- C5 (witness): tick 7 satisfies all three side conditions and indeed gets
the equatorial query, and matches the claim schedule. -/
theorem heartbeatMethod_matches_schedule_witness :
    heartbeatMethod 7 = claimSchedule 7 ∧
    heartbeatMethod 7 = "scope_get_equ_coord" :=
  ⟨heartbeatMethod_matches_schedule.1 7,
   heartbeatMethod_matches_schedule.2 7 (by decide) (by decide) (by decide)⟩

/-! ## Event stores (`events/event_stream.py`) -/

/-- A JSON-parsed control-channel message, abstracted to its `"Event"` key
(`none` = key absent) and an opaque body distinguishing messages. -/
structure Msg where
  tag : Option String
  body : Nat
deriving DecidableEq, Repr

/-- Python truthiness of `data.get("Event")`: an absent key (`None`) and the
empty string are falsy. -/
def truthyTag : Option String → Bool
  | none => false
  | some s => !(s == "")

/-- Python-dict upsert: overwrite the value in place if the key exists
(keeping insertion order), else append the new pair at the end — the
semantics of `LATEST_STATE[event_type] = data`. -/
def upsert (m : List (String × Msg)) (k : String) (v : Msg) :
    List (String × Msg) :=
  match m with
  | [] => [(k, v)]
  | (k', v') :: rest =>
    if k' = k then (k, v) :: rest else (k', v') :: upsert rest k v

/-- `deque(maxlen=500).append`: append on the right, evicting the leftmost
entry once the buffer is full — the semantics of `LATEST_LOGS.append(data)`
with `LATEST_LOGS = deque(maxlen=500)`. -/
def pushLog (logs : List Msg) (d : Msg) : List Msg :=
  if logs.length < 500 then logs ++ [d] else logs.drop 1 ++ [d]

/-- The module-level shared state of `event_stream.py`: `LATEST_STATE` (most
recent event per type) and `LATEST_LOGS` (rolling 500-entry buffer). -/
structure EventStore where
  LATEST_STATE : List (String × Msg)
  LATEST_LOGS : List Msg
deriving DecidableEq, Repr

/-- Both stores start empty. -/
def emptyStore : EventStore := ⟨[], []⟩

/-- `handle_event(data)`: extract `data.get("Event")`; when truthy, upsert
into `LATEST_STATE` and append to `LATEST_LOGS`; otherwise do nothing. -/
def handle_event (st : EventStore) (d : Msg) : EventStore :=
  match d.tag with
  | none => st
  | some s =>
    if s = "" then st
    else
      { LATEST_STATE := upsert st.LATEST_STATE s d
        LATEST_LOGS := pushLog st.LATEST_LOGS d }

theorem handle_event_logs (es : List Msg) :
    ∀ st : EventStore, (∀ e ∈ es, truthyTag e.tag = true) →
      (List.foldl handle_event st es).LATEST_LOGS
        = List.foldl pushLog st.LATEST_LOGS es := by
  induction es with
  | nil => intro st _; rfl
  | cons e es' ih =>
    intro st h
    have he := h e (by simp)
    have h' : ∀ x ∈ es', truthyTag x.tag = true := fun x hx => h x (by simp [hx])
    simp only [List.foldl_cons]
    rw [ih (handle_event st e) h']
    congr 1
    cases htag : e.tag with
    | none => rw [htag] at he; simp [truthyTag] at he
    | some s =>
      have hs : s ≠ "" := by
        rw [htag] at he; simpa [truthyTag] using he
      simp [handle_event, htag, hs]

theorem foldl_pushLog_lastN (es : List Msg) :
    List.foldl pushLog [] es = es.drop (es.length - 500) := by
  induction es using List.reverseRecOn with
  | nil => rfl
  | append_singleton es' e ih =>
    rw [List.foldl_append]
    simp only [List.foldl_cons, List.foldl_nil]
    rw [ih]
    unfold pushLog
    have hlen : (es'.drop (es'.length - 500)).length
        = es'.length - (es'.length - 500) := List.length_drop _ _
    by_cases hcase : es'.length < 500
    · rw [if_pos (by omega)]
      rw [show es'.length - 500 = 0 by omega, List.drop_zero]
      rw [show (es' ++ [e]).length - 500 = 0 by
        simp only [List.length_append, List.length_singleton]; omega]
      rw [List.drop_zero]
    · rw [if_neg (by omega)]
      rw [List.drop_drop]
      rw [show (es' ++ [e]).length - 500 = (es'.length - 500) + 1 by
        simp only [List.length_append, List.length_singleton]; omega]
      rw [List.drop_append_of_le_length (by omega)]

/-- C7: starting from the empty history, after any sequence of tagged-event
insertions the history holds exactly the last 500 inserted records in
insertion order (all of them while at most 500 have been inserted), and its
size is `min n 500` — the ring never exceeds its fixed capacity 500. -/
theorem handle_event_history_ring (es : List Msg)
    (h : ∀ e ∈ es, truthyTag e.tag = true) :
    (List.foldl handle_event emptyStore es).LATEST_LOGS
        = es.drop (es.length - 500) ∧
    (List.foldl handle_event emptyStore es).LATEST_LOGS.length
        = min es.length 500 := by
  have h1 := handle_event_logs es emptyStore h
  have h2 := foldl_pushLog_lastN es
  rw [show emptyStore.LATEST_LOGS = ([] : List Msg) from rfl] at h1
  refine ⟨by rw [h1]; exact h2, ?_⟩
  rw [h1, h2, List.length_drop]
  omega

/-- C7 (witness): two tagged insertions leave a two-entry history equal to
the inserted list itself. -/
theorem handle_event_history_ring_witness :
    (List.foldl handle_event emptyStore [⟨some "A", 1⟩, ⟨some "B", 2⟩]).LATEST_LOGS
        = ([⟨some "A", 1⟩, ⟨some "B", 2⟩] : List Msg).drop
            (([⟨some "A", 1⟩, ⟨some "B", 2⟩] : List Msg).length - 500) ∧
    (List.foldl handle_event emptyStore [⟨some "A", 1⟩, ⟨some "B", 2⟩]).LATEST_LOGS.length
        = min ([⟨some "A", 1⟩, ⟨some "B", 2⟩] : List Msg).length 500 :=
  handle_event_history_ring [⟨some "A", 1⟩, ⟨some "B", 2⟩] (by decide)

theorem upsert_keys_mem (m : List (String × Msg)) (k k' : String) (v : Msg)
    (h : k ∈ m.map Prod.fst) : k ∈ (upsert m k' v).map Prod.fst := by
  induction m with
  | nil => simp at h
  | cons p rest ih =>
    obtain ⟨pk, pv⟩ := p
    unfold upsert
    by_cases hp : pk = k'
    · rw [if_pos hp]
      simp at h ⊢
      rcases h with h | h
      · left; exact h.trans hp
      · right; exact h
    · rw [if_neg hp]
      simp at h ⊢
      rcases h with h | h
      · left; exact h
      · right
        have := ih (by simpa using h)
        simpa using this

/-- C8: the state store is last-write-wins per event type.  Concretely,
feeding events tagged "A", "B", "A" into an empty store leaves exactly the
2 keys `A` and `B`, with `A` bound to the second "A" event and `B` to the
"B" event; and in general handling any event never removes an existing key
from the store. -/
theorem handle_event_last_write_wins :
    ((List.foldl handle_event emptyStore
        [⟨some "A", 1⟩, ⟨some "B", 2⟩, ⟨some "A", 3⟩]).LATEST_STATE
      = [("A", ⟨some "A", 3⟩), ("B", ⟨some "B", 2⟩)]) ∧
    (∀ (st : EventStore) (d : Msg) (k : String),
      k ∈ st.LATEST_STATE.map Prod.fst →
      k ∈ (handle_event st d).LATEST_STATE.map Prod.fst) := by
  refine ⟨by decide, ?_⟩
  intro st d k hk
  cases htag : d.tag with
  | none => simpa [handle_event, htag] using hk
  | some s =>
    by_cases hs : s = ""
    · simpa [handle_event, htag, hs] using hk
    · simp only [handle_event, htag]
      rw [if_neg hs]
      exact upsert_keys_mem _ _ _ _ hk

/-- C8 (witness): the no-deletion component applied concretely: the key "A"
survives handling a "B"-tagged event. -/
theorem handle_event_last_write_wins_witness :
    "A" ∈ ((handle_event ⟨[("A", ⟨some "A", 1⟩)], []⟩
        ⟨some "B", 2⟩).LATEST_STATE.map Prod.fst) :=
  handle_event_last_write_wins.2 ⟨[("A", ⟨some "A", 1⟩)], []⟩ ⟨some "B", 2⟩ "A"
    (by decide)

/-- C10: a message whose `"Event"` key is absent or falsy (the empty
string) leaves the whole store — both the per-type state map and the
history ring — unchanged; `handle_event` is total on such messages, so it
never raises. -/
theorem handle_event_ignores_untagged (st : EventStore) (d : Msg)
    (h : d.tag = none ∨ d.tag = some "") :
    handle_event st d = st := by
  rcases h with h | h <;> simp [handle_event, h]

/-- C10 (witness): an empty-string-tagged message leaves a nonempty store
untouched. -/
theorem handle_event_ignores_untagged_witness :
    handle_event ⟨[("A", ⟨some "A", 1⟩)], [⟨some "A", 1⟩]⟩ ⟨some "", 9⟩
      = ⟨[("A", ⟨some "A", 1⟩)], [⟨some "A", 1⟩]⟩ :=
  handle_event_ignores_untagged _ _ (Or.inr rfl)

/-! ## Listener lifecycle (`events/event_listener.py`, `start_listener` and
`stop_listener`) -/

/-- The module-level listener state of `event_listener.py`:
`_listener_running`, `_listener_thread` (identified here by a spawn
ordinal), `_shutdown_event` (`some b` = an `asyncio.Event` exists with flag
`b`), plus `spawn_count`, bookkeeping that counts every thread/connection
ever spawned so that "spawns no second thread" is expressible. -/
structure ListenerState where
  listener_running : Bool
  listener_thread : Option Nat
  shutdown_event : Option Bool
  spawn_count : Nat
deriving DecidableEq, Repr

/-- `start_listener()`: a no-op when `_listener_running` is already set;
otherwise set the flag, create a fresh (cleared) shutdown event and spawn
the background thread. -/
def start_listener (st : ListenerState) : ListenerState :=
  if st.listener_running then st
  else
    { listener_running := true
      listener_thread := some st.spawn_count
      shutdown_event := some false
      spawn_count := st.spawn_count + 1 }

/-- `stop_listener()`: returns immediately when the listener is not
running; otherwise sets the shutdown event, joins the thread, and clears
all module state. -/
def stop_listener (st : ListenerState) : ListenerState :=
  if st.listener_running then
    { listener_running := false
      listener_thread := none
      shutdown_event := none
      spawn_count := st.spawn_count }
  else st

/-- C9: listener lifecycle idempotence.  Starting an already-running
listener is a no-op (identical state, and in particular no second
thread/connection is ever spawned: the spawn count is unchanged), so two
starts are equivalent to one; stopping a non-running listener returns — it
is a total function, so nothing is raised — with all state unchanged. -/
theorem listener_lifecycle_idempotent :
    (∀ st : ListenerState, st.listener_running = true →
      start_listener st = st) ∧
    (∀ st : ListenerState,
      start_listener (start_listener st) = start_listener st) ∧
    (∀ st : ListenerState, st.listener_running = false →
      stop_listener st = st) := by
  refine ⟨?_, ?_, ?_⟩
  · intro st h
    simp [start_listener, h]
  · intro st
    by_cases h : st.listener_running <;> simp [start_listener, h]
  · intro st h
    simp [stop_listener, h]

/-- C9 (witness): the three components at concrete listener states. -/
theorem listener_lifecycle_idempotent_witness :
    start_listener ⟨true, some 0, some false, 1⟩ = ⟨true, some 0, some false, 1⟩ ∧
    start_listener (start_listener ⟨false, none, none, 0⟩)
      = start_listener ⟨false, none, none, 0⟩ ∧
    stop_listener ⟨false, none, none, 0⟩ = ⟨false, none, none, 0⟩ :=
  ⟨listener_lifecycle_idempotent.1 ⟨true, some 0, some false, 1⟩ rfl,
   listener_lifecycle_idempotent.2.1 ⟨false, none, none, 0⟩,
   listener_lifecycle_idempotent.2.2 ⟨false, none, none, 0⟩ rfl⟩

end Seestarpy
